import Mathlib

/-!
Verification development for the `genmain` application-code generator
(`goagen/gen_main/generator.go`): a shallow embedding of its data model,
success-response resolution (`okResp`), temp-name allocation (`tempvar`),
scaffold emission (`Generator.Generate`) and rollback (`Generator.Cleanup`),
together with theorems about them.

External collaborators (the `design` and `codegen` packages, the template
engine, the filesystem) are modelled at their interfaces: pure data for the
immutable design model, an explicit record of collaborator functions, and an
association-list filesystem with explicit state passing.
-/

set_option maxHeartbeats 1000000

namespace Genmain

/-! ## Data model (design package entities, as read by this generator) -/

/-- A media type definition, reduced to the fields this generator reads:
its identifier and its error-shaped flag (`design.MediaTypeDefinition`,
read through `IsError` in `okResp`). -/
structure MediaTypeDefinition where
  identifier : String
  isError : Bool
deriving Repr, DecidableEq

/-- One declared response of an action (`design.ResponseDefinition`):
name, numeric status code, media-type identifier and optional view name
(empty string means "use the default view"). -/
structure ResponseDefinition where
  name : String
  status : Int
  mediaType : String
  viewName : String
deriving Repr, DecidableEq

/-- An action (`design.ActionDefinition`): name, declared responses and
the WebSocket flag. The source stores responses in a map; the generator
only scans them in iteration order, modelled here as a list. -/
structure ActionDefinition where
  name : String
  responses : List ResponseDefinition
  webSocket : Bool
deriving Repr, DecidableEq

/-- A resource (`design.ResourceDefinition`): name and its actions in
the (deterministic) order `IterateActions` visits them. -/
structure ResourceDefinition where
  name : String
  actions : List ActionDefinition
deriving Repr, DecidableEq

/-- Modelled from the spec: `design.DefaultView`, the literal default view
name used when a response declares no explicit view (the `design` package is
an external collaborator; spec §3 says projection "falls back to the literal
string `"default"`", which also matches the literal comparison on
generator.go line 241). -/
def DefaultView : String := "default"

/-- Models Go `strings.HasPrefix`: byte-level prefix test, rendered here as
a character-list prefix test (all prefixes used by this generator are the
one-character ASCII string `"*"`). -/
def hasPre (s pre : String) : Bool :=
  pre.data.isPrefixOf s.data

/-- The collaborator interface: everything `generator.go` calls in the
`design` and `codegen` packages, plus the fallible template/format/file
operations. A value of this structure fixes one deterministic behaviour
for each collaborator. -/
structure Ext where
  /-- `design.CanonicalIdentifier` -/
  canonicalIdentifier : String → String
  /-- `MediaTypeDefinition.Project view` (line 220): external view
  projection; `none` models the error return. -/
  project : MediaTypeDefinition → String → Option MediaTypeDefinition
  /-- `pmt.AllRequired()` -/
  allRequired : MediaTypeDefinition → List String
  /-- `codegen.GoTypeRef` -/
  goTypeRef : MediaTypeDefinition → List String → Nat → Bool → String
  /-- `codegen.GoNativeType` -/
  goNativeType : MediaTypeDefinition → String
  /-- `codegen.Goify` -/
  goify : String → Bool → String
  /-- `codegen.SnakeCase` -/
  snakeCase : String → String
  /-- `codegen.PackagePath(g.OutDir)`: `none` models the error return. -/
  packagePath : Option String
  /-- `codegen.SourceFileFor path`: `true` means the file was opened
  (created empty on disk), `false` models the error return. -/
  sourceFileFor : String → Bool
  /-- Output of `file.WriteHeader("", "main", imports)` for a resource
  file (line 118). -/
  resourceHeader : String
  /-- Output of `file.WriteHeader` in `createMainFile` (line 189). -/
  mainHeader : String
  /-- `file.ExecuteTemplate("main", mainT, funcs, data)` (line 194):
  `some body` is the rendered text, `none` the error return. -/
  renderMain : Option String
  /-- `file.ExecuteTemplate("controller", ctrlT, funcs, r)` (line 119). -/
  renderCtrl : ResourceDefinition → Option String
  /-- `file.ExecuteTemplate("action", actionT, funcs, a)` (line 126). -/
  renderAction : ActionDefinition → Option String
  /-- `file.ExecuteTemplate("actionWS", actionWST, funcs, a)` (line 124). -/
  renderActionWS : ActionDefinition → Option String
  /-- `file.FormatCode()`: given the accumulated file content, `some`
  formatted content or `none` for the error return. -/
  formatCode : String → Option String

/-! ## Success-response resolution (`Generator.okResp`, lines 200-249) -/

/-- The descriptor map built by `okResp` (keys `"Name"`, `"GoType"`,
`"TypeRef"` of the returned `map[string]interface{}`). -/
structure RespDescriptor where
  Name : String
  GoType : String
  TypeRef : String
deriving Repr, DecidableEq

/-- The effective view name (lines 216-219): the response's explicit view
if non-empty, else `design.DefaultView`. -/
def effectiveView (r : ResponseDefinition) : String :=
  if r.viewName = "" then DefaultView else r.viewName

/-- `Generator.okResp` (lines 200-249). `target` is `g.Target`;
`mediaTypes` is the global `design.Design.MediaTypes` mapping. Returns
`none` where the source returns `nil`. -/
def okResp (ext : Ext) (target : String)
    (mediaTypes : String → Option MediaTypeDefinition)
    (a : ActionDefinition) : Option RespDescriptor :=
  match a.responses.find? (fun resp => resp.status == 200) with
  | none => none
  | some ok =>
    match mediaTypes (ext.canonicalIdentifier ok.mediaType) with
    | none => none
    | some mt =>
      let view := effectiveView ok
      match ext.project mt view with
      | none => none
      | some pmt =>
        let typeref :=
          if pmt.isError then
            "goa.ErrInternal(\"not implemented\")"
          else
            let name0 := ext.goTypeRef pmt (ext.allRequired pmt) 1 false
            let name := if hasPre name0 "*" then name0.drop 1 else name0
            let pointer := if hasPre name0 "*" then "*" else ""
            let t1 := pointer ++ target ++ "." ++ name
            let t2 := if hasPre t1 "*" then "&" ++ t1.drop 1 else t1
            t2 ++ "\x7b\x7d"
        let nameSuffix := if view ≠ "default" then ext.goify view true else ""
        some { Name := ok.name ++ nameSuffix
             , GoType := ext.goNativeType pmt
             , TypeRef := typeref }

/-- The return expression emitted by the `actionT` template (line 293):
`ctx.<Name>(res)` when `okResp` produced a descriptor, the literal `nil`
otherwise. -/
def actionReturn (ok : Option RespDescriptor) : String :=
  match ok with
  | some d => "ctx." ++ d.Name ++ "(res)"
  | none => "nil"

/-! ## Temp-name allocation (`tempvar`, lines 152-162) -/

/-- Most-significant-first decimal digits, with a fuel argument to make
the recursion structural (`fuel ≥ n` suffices, see `decDigitsAux_val`). -/
def decDigitsAux : Nat → Nat → List Nat
  | 0, n => [n % 10]
  | fuel + 1, n => if n < 10 then [n] else decDigitsAux fuel (n / 10) ++ [n % 10]

/-- Most-significant-first decimal digits of a natural number; the digit
algorithm behind Go's `fmt.Sprintf("%d", n)`. -/
def decDigits (n : Nat) : List Nat :=
  decDigitsAux n n

/-- Decimal rendering of a natural number (models `%d` in
`fmt.Sprintf("c%d", tempCount)`). -/
def decimal (n : Nat) : String :=
  String.mk ((decDigits n).map Nat.digitChar)

/-- `tempvar` (lines 156-162), with the package-level `tempCount` made an
explicit state argument: increments the counter, returns `"c"` on the
first call and `"c<count>"` afterwards. -/
def tempvar (tempCount : Nat) : String × Nat :=
  let tempCount := tempCount + 1
  if tempCount = 1 then ("c", tempCount)
  else ("c" ++ decimal tempCount, tempCount)

/-- The names produced by `n` consecutive `tempvar` calls starting from
counter state `st`. -/
def tempvarRun : Nat → Nat → List String
  | 0, _ => []
  | n + 1, st =>
    match tempvar st with
    | (s, st1) => s :: tempvarRun n st1

/-- The name the `k`-th `tempvar` call of the process produces
(counter starts at 0, so the `k`-th call sees `tempCount = k`). -/
def tempName (k : Nat) : String :=
  if k = 1 then "c" else "c" ++ decimal k

/-- Sanity checks for the decimal printer and the allocator. -/
theorem decimal_examples :
    decimal 0 = "0" ∧ decimal 7 = "7" ∧ decimal 42 = "42" ∧
    decimal 230 = "230" ∧ tempvarRun 3 0 = ["c", "c2", "c3"] :=
  ⟨rfl, rfl, rfl, rfl, rfl⟩

/-- Sanity link between `decimal` and Lean's own decimal printer on an
initial segment: both implement base-10 printing. -/
theorem decimal_agrees_small : ∀ n, n < 120 → decimal n = Nat.repr n := by decide

/-- Reading the digit list of `n` back in base 10 recovers `n`
(for any sufficient fuel). -/
theorem decDigitsAux_val :
    ∀ fuel n, n ≤ fuel →
      (decDigitsAux fuel n).foldl (fun a d => 10 * a + d) 0 = n := by
  intro fuel
  induction fuel with
  | zero =>
    intro n hn
    have h0 : n = 0 := Nat.le_zero.mp hn
    subst h0
    simp [decDigitsAux]
  | succ f ih =>
    intro n hn
    rw [decDigitsAux]
    by_cases h : n < 10
    · simp [h]
    · have hd : n / 10 ≤ f := by
        have : n / 10 < n := Nat.div_lt_self (by omega) (by omega)
        omega
      simp only [h, if_false, List.foldl_append]
      rw [ih (n / 10) hd]
      simp only [List.foldl_cons, List.foldl_nil]
      omega

/-- Every entry of a decimal digit list is an actual digit. -/
theorem decDigitsAux_lt10 :
    ∀ fuel n d, d ∈ decDigitsAux fuel n → d < 10 := by
  intro fuel
  induction fuel with
  | zero =>
    intro n d hd
    simp [decDigitsAux] at hd
    subst hd
    exact Nat.mod_lt _ (by omega)
  | succ f ih =>
    intro n d hd
    rw [decDigitsAux] at hd
    by_cases h : n < 10
    · simp [h] at hd
      omega
    · simp only [h, if_false, List.mem_append, List.mem_singleton] at hd
      rcases hd with hd | hd
      · exact ih _ _ hd
      · subst hd
        exact Nat.mod_lt _ (by omega)

/-- `decDigits` is injective (two numbers with the same digit list are
equal, by reading the digits back). -/
theorem decDigits_inj {m n : Nat} (h : decDigits m = decDigits n) : m = n := by
  have hm := decDigitsAux_val m m (Nat.le_refl m)
  have hn := decDigitsAux_val n n (Nat.le_refl n)
  rw [decDigits] at h
  rw [h, decDigits] at hm
  rw [hn] at hm
  exact hm.symm

/-- `Nat.digitChar` is injective on digits. -/
theorem digitChar_inj_lt10 :
    ∀ d < 10, ∀ e < 10, Nat.digitChar d = Nat.digitChar e → d = e := by decide

/-- Mapping `Nat.digitChar` over digit lists is injective. -/
theorem map_digitChar_inj :
    ∀ l1 l2 : List Nat, (∀ d ∈ l1, d < 10) → (∀ d ∈ l2, d < 10) →
      l1.map Nat.digitChar = l2.map Nat.digitChar → l1 = l2 := by
  intro l1
  induction l1 with
  | nil =>
    intro l2 _ _ h
    cases l2 with
    | nil => rfl
    | cons b bs => simp at h
  | cons a as ih =>
    intro l2 h1 h2 h
    cases l2 with
    | nil => simp at h
    | cons b bs =>
      simp only [List.map_cons, List.cons.injEq] at h
      have ha : a < 10 := h1 a (List.mem_cons_self a as)
      have hb : b < 10 := h2 b (List.mem_cons_self b bs)
      have hab : a = b := digitChar_inj_lt10 a ha b hb h.1
      have htl : as = bs :=
        ih bs (fun d hd => h1 d (List.mem_cons_of_mem a hd))
          (fun d hd => h2 d (List.mem_cons_of_mem b hd)) h.2
      rw [hab, htl]

/-- `decimal` is injective. -/
theorem decimal_inj {m n : Nat} (h : decimal m = decimal n) : m = n := by
  have hdata : (decimal m).data = (decimal n).data := by rw [h]
  simp only [decimal] at hdata
  have hmap := map_digitChar_inj (decDigits m) (decDigits n)
    (fun d hd => decDigitsAux_lt10 m m d hd)
    (fun d hd => decDigitsAux_lt10 n n d hd) hdata
  exact decDigits_inj hmap

/-- A decimal digit list is never empty. -/
theorem decDigits_ne_nil (n : Nat) : decDigits n ≠ [] := by
  rw [decDigits]
  cases n with
  | zero => simp [decDigitsAux]
  | succ k =>
    rw [decDigitsAux]
    by_cases h : k + 1 < 10
    · simp [h]
    · simp [h]

/-- The names issued by `tempvar` are pairwise distinct: `tempName` is
injective on positive call indices. -/
theorem tempName_inj {j k : Nat} (_hj : 1 ≤ j) (_hk : 1 ≤ k)
    (h : tempName j = tempName k) : j = k := by
  unfold tempName at h
  by_cases h1 : j = 1 <;> by_cases h2 : k = 1
  · omega
  · exfalso
    rw [if_pos h1, if_neg h2] at h
    have hdat := congrArg String.data h
    rw [String.data_append] at hdat
    have hne := decDigits_ne_nil k
    cases hd : (decimal k).data with
    | nil =>
      simp only [decimal] at hd
      exact hne (List.map_eq_nil_iff.mp hd)
    | cons c cs =>
      rw [hd] at hdat
      simp at hdat
  · exfalso
    rw [if_neg h1, if_pos h2] at h
    have hdat := congrArg String.data h
    rw [String.data_append] at hdat
    have hne := decDigits_ne_nil j
    cases hd : (decimal j).data with
    | nil =>
      simp only [decimal] at hd
      exact hne (List.map_eq_nil_iff.mp hd)
    | cons c cs =>
      rw [hd] at hdat
      simp at hdat
  · rw [if_neg h1, if_neg h2] at h
    have : ("c" ++ decimal j).data = ("c" ++ decimal k).data := by rw [h]
    rw [String.data_append, String.data_append] at this
    simp only [List.append_cancel_left_eq] at this
    have : decimal j = decimal k := String.ext this
    exact decimal_inj this

/-- One `tempvar` call from counter state `st` issues the `st+1`-st name. -/
theorem tempvar_eq (st : Nat) : tempvar st = (tempName (st + 1), st + 1) := by
  show (if st + 1 = 1 then ("c", st + 1) else ("c" ++ decimal (st + 1), st + 1))
      = (tempName (st + 1), st + 1)
  unfold tempName
  by_cases h : st + 1 = 1
  · rw [if_pos h, if_pos h]
  · rw [if_neg h, if_neg h]

/-- Closed form of a run of `tempvar` calls. -/
theorem tempvarRun_eq :
    ∀ N st, tempvarRun N st = (List.range N).map (fun i => tempName (st + i + 1)) := by
  intro N
  induction N with
  | zero => intro st; rfl
  | succ n ih =>
    intro st
    rw [tempvarRun, tempvar_eq]
    show tempName (st + 1) :: tempvarRun n (st + 1) = _
    rw [List.range_succ_eq_map, List.map_cons, ih (st + 1)]
    simp only [List.map_map, Nat.add_zero, List.cons.injEq, true_and]
    apply List.map_congr_left
    intro i _
    simp only [Function.comp_apply]
    congr 1
    omega

/-- C8: For every N ≥ 1, N consecutive `tempvar` calls within one process
(counter starting at its zero value) produce N pairwise-distinct names;
the first call yields the fixed short name `"c"` and the k-th call for
every k ≥ 2 yields `"c"` followed by the decimal numeral of k. -/
theorem tempvar_names (N : Nat) (hN : 1 ≤ N) :
    (tempvarRun N 0).length = N ∧
    (tempvarRun N 0).Nodup ∧
    (tempvarRun N 0).head? = some "c" ∧
    ∀ k, 2 ≤ k → k ≤ N → (tempvarRun N 0)[k - 1]? = some ("c" ++ decimal k) := by
  have hrun := tempvarRun_eq N 0
  simp only [Nat.zero_add] at hrun
  refine ⟨?_, ?_, ?_, ?_⟩
  · rw [hrun]
    simp
  · rw [hrun]
    refine List.Nodup.map ?_ (List.nodup_range N)
    intro i j hij
    have := tempName_inj (j := i + 1) (k := j + 1) (by omega) (by omega) hij
    omega
  · rw [hrun]
    cases N with
    | zero => omega
    | succ n =>
      rw [List.range_succ_eq_map, List.map_cons]
      rfl
  · intro k h2 hkN
    rw [hrun]
    have hk1 : k - 1 < N := by omega
    rw [List.getElem?_map, List.getElem?_range hk1]
    show some (tempName (k - 1 + 1)) = some ("c" ++ decimal k)
    have hk : k - 1 + 1 = k := by omega
    rw [hk, tempName]
    rw [if_neg (by omega)]

/-- Witness for `tempvar_names` at N = 3. -/
theorem tempvar_names_witness :
    1 ≤ 3 ∧
    ((tempvarRun 3 0).length = 3 ∧
     (tempvarRun 3 0).Nodup ∧
     (tempvarRun 3 0).head? = some "c" ∧
     ∀ k, 2 ≤ k → k ≤ 3 → (tempvarRun 3 0)[k - 1]? = some ("c" ++ decimal k)) :=
  ⟨by omega, tempvar_names 3 (by omega)⟩

/-! ## Filesystem, scaffold emission and rollback
(`Generator.Generate` lines 66-142, `createMainFile` lines 164-198,
`Generator.Cleanup` lines 145-150) -/

/-- The output directory, as an association list from path to content.
`os.Remove` is best-effort in the source (its error is ignored), so
removal of a missing path is a no-op here as well. -/
abbrev FS := List (String × String)

/-- Does a file exist at `p`? (`os.Stat` succeeding). -/
def FS.existsb (fs : FS) (p : String) : Bool :=
  fs.any (fun e => e.1 == p)

/-- `os.Remove p` (best-effort). -/
def FS.remove (fs : FS) (p : String) : FS :=
  fs.filter (fun e => e.1 != p)

/-- Create/truncate-and-write the file at `p` with content `c`. -/
def FS.write (fs : FS) (p c : String) : FS :=
  (p, c) :: FS.remove fs p

/-- Content of the file at `p`, if any. -/
def FS.read (fs : FS) (p : String) : Option String :=
  (fs.find? (fun e => e.1 == p)).map (fun e => e.2)

/-- Errors a generation run can report to its caller. -/
inductive GenErr where
  | pkgPath
  | sourceFile
  | render
  | format
deriving Repr, DecidableEq

/-- The per-run configuration of the generator (`Generator` fields set by
the entry point) together with the design model's resources in the
deterministic order `IterateResources` visits them. -/
structure Config where
  outDir : String
  designPkg : String
  target : String
  force : Bool
  resources : List ResourceDefinition

/-- Mutable state of one run: the output directory and the `g.genfiles`
creation log. -/
structure GenSt where
  fs : FS
  genfiles : List String
deriving Repr, DecidableEq

/-- `Generator.Cleanup` (lines 145-150): removes every recorded path,
then clears the log (`g.genfiles = nil`). -/
def cleanup (st : GenSt) : GenSt :=
  { fs := st.genfiles.foldl (fun fs f => FS.remove fs f) st.fs
  , genfiles := [] }

/-- The path of the generated entry-point file (line 81):
`filepath.Join(g.OutDir, "main.go")`. -/
def mainFilename (cfg : Config) : String :=
  cfg.outDir ++ "/main.go"

/-- The filename of the generated per-resource file (line 108):
`filepath.Join(g.OutDir, codegen.SnakeCase(r.Name)+".go")`. -/
def resFilename (ext : Ext) (cfg : Config) (r : ResourceDefinition) : String :=
  cfg.outDir ++ "/" ++ ext.snakeCase r.name ++ ".go"

/-- `r.IterateActions` body (lines 122-127): render each action with the
WebSocket or the plain template, stopping at the first error; the pair
carries the text written to the file so far and the error, if any. -/
def renderActions (ext : Ext) : List ActionDefinition → String × Option GenErr
  | [] => ("", none)
  | a :: rest =>
    match (if a.webSocket then ext.renderActionWS a else ext.renderAction a) with
    | none => ("", some .render)
    | some s =>
      match renderActions ext rest with
      | (acc, e) => (s ++ acc, e)

/-- `Generator.createMainFile` (lines 164-198). The `mainFile` path is
appended to the creation log before the file is opened; each write
truncates-and-rewrites the accumulated content (the source streams, which
is equivalent for the final state). -/
def createMainFile (ext : Ext) (cfg : Config) (mainFile : String)
    (st : GenSt) : GenSt × Option GenErr :=
  let st := { st with genfiles := st.genfiles ++ [mainFile] }
  if ext.sourceFileFor mainFile = false then (st, some .sourceFile)
  else
    let st := { st with fs := FS.write st.fs mainFile "" }
    match ext.packagePath with
    | none => (st, some .pkgPath)
    | some _ =>
      let content := "//go:generate goagen bootstrap -d " ++ cfg.designPkg
        ++ "\n\n" ++ ext.mainHeader
      let st := { st with fs := FS.write st.fs mainFile content }
      match ext.renderMain with
      | none => (st, some .render)
      | some body =>
        let content := content ++ body
        let st := { st with fs := FS.write st.fs mainFile content }
        match ext.formatCode content with
        | none => (st, some .format)
        | some formatted => ({ st with fs := FS.write st.fs mainFile formatted }, none)

/-- The `IterateResources` closure (lines 107-136). The branches marked
"source slip" are where the source checks `err2 != nil` but executes
`return err`, returning the enclosing function's named `err`, which is
provably `nil` at that point (it was last assigned by a successful
`os.Stat`/`createMainFile` on lines 95-99 before the iteration began):
the closure reports no error there. Only the `FormatCode` failure on
line 131-132 returns `err2` itself. -/
def resourceBody (ext : Ext) (cfg : Config) (st : GenSt)
    (r : ResourceDefinition) : GenSt × Option GenErr :=
  let filename := resFilename ext cfg r
  if FS.existsb st.fs filename then (st, none)
  else
    let st := { st with genfiles := st.genfiles ++ [filename] }
    if ext.sourceFileFor filename = false then
      (st, none)  -- source slip: `return err` with nil `err` (line 116)
    else
      let st := { st with fs := FS.write st.fs filename "" }
      let content := ext.resourceHeader
      let st := { st with fs := FS.write st.fs filename content }
      match ext.renderCtrl r with
      | none => (st, none)  -- source slip: `return err` with nil `err` (line 120)
      | some ctrl =>
        let content := content ++ ctrl
        let st := { st with fs := FS.write st.fs filename content }
        let ra := renderActions ext r.actions
        let content := content ++ ra.1
        let st := { st with fs := FS.write st.fs filename content }
        match ra.2 with
        | some _ => (st, none)  -- source slip: `return err` with nil `err` (line 129)
        | none =>
          match ext.formatCode content with
          | none => (st, some .format)  -- `return err2` (line 132): propagated
          | some formatted =>
            ({ st with fs := FS.write st.fs filename formatted }, none)

/-- The `IterateResources` closure including its leading force-delete
(lines 109-111): with `g.Force` set, `os.Remove` the target path before
the existence check, then run the body above. -/
def resourceStep (ext : Ext) (cfg : Config) (st : GenSt)
    (r : ResourceDefinition) : GenSt × Option GenErr :=
  let filename := resFilename ext cfg r
  resourceBody ext cfg
    (if cfg.force then { st with fs := FS.remove st.fs filename } else st) r

/-- `g.API.IterateResources` (line 107): run the closure over each
resource in order, stopping at the first reported error. -/
def iterResources (ext : Ext) (cfg : Config) :
    GenSt → List ResourceDefinition → GenSt × Option GenErr
  | st, [] => (st, none)
  | st, r :: rest =>
    let step := resourceStep ext cfg st r
    match step.2 with
    | some e => (step.1, some e)
    | none => iterResources ext cfg step.1 rest

/-- The body of `Generator.Generate` (lines 66-142) up to its deferred
handler: force-remove of the main file, `PackagePath`, the stat-or-create
of the main file, then the per-resource iteration. (The registration of
`g.Target` in the process-wide reserved-word set and the concurrent
`utils.Catch` cancellation watcher mutate no state this model reads.) -/
def generateCore (ext : Ext) (cfg : Config) (fs0 : FS) : GenSt × Option GenErr :=
  let mainFile := mainFilename cfg
  let st : GenSt :=
    { fs := if cfg.force then FS.remove fs0 mainFile else fs0, genfiles := [] }
  match ext.packagePath with
  | none => (st, some .pkgPath)
  | some _ =>
    if FS.existsb st.fs mainFile then iterResources ext cfg st cfg.resources
    else
      let cm := createMainFile ext cfg mainFile st
      match cm.2 with
      | some e => (cm.1, some e)
      | none => iterResources ext cfg cm.1 cfg.resources

/-- `Generator.Generate` as seen by the caller: on error the deferred
handler (lines 69-73) runs `Cleanup` before the error propagates; on
success the creation log is returned. -/
def generate (ext : Ext) (cfg : Config) (fs0 : FS) :
    FS × Except GenErr (List String) :=
  match generateCore ext cfg fs0 with
  | (st, some e) => ((cleanup st).fs, .error e)
  | (st, none) => (st.fs, .ok st.genfiles)

/-! ## Concrete collaborator instances used by witnesses and
counterexamples -/

/-- A resolvable, non-error media type. -/
def mtOk : MediaTypeDefinition := { identifier := "application/vnd.ok", isError := false }

/-- A baseline collaborator instance: everything succeeds except view
projection and the controller template (used to exhibit the swallowed
template error), with transparent casing/formatting. -/
def extBug : Ext where
  canonicalIdentifier := fun s => s
  project := fun _ _ => none
  allRequired := fun _ => []
  goTypeRef := fun _ _ _ _ => "X"
  goNativeType := fun _ => "x"
  goify := fun s _ => s
  snakeCase := fun s => s
  packagePath := some "pkg/out"
  sourceFileFor := fun _ => true
  resourceHeader := "HDR\n"
  mainHeader := "MHDR\n"
  renderMain := some "MAINBODY\n"
  renderCtrl := fun _ => none
  renderAction := fun _ => some "ACT\n"
  renderActionWS := fun _ => some "WS\n"
  formatCode := fun s => some s

/-- A run over a single resource named `bottle`. -/
def cfgBug : Config :=
  { outDir := "out", designPkg := "dp", target := "app", force := false
  , resources := [{ name := "bottle", actions := [] }] }

/-- The 200 response used by several concrete actions below. -/
def rOK : ResponseDefinition :=
  { name := "OK", status := 200, mediaType := "mt", viewName := "" }

/-- An action declaring exactly one response, with status 200. -/
def aCex : ActionDefinition :=
  { name := "show", responses := [rOK], webSocket := false }

/-- An action declaring only a 404 response. -/
def a404 : ActionDefinition :=
  { name := "show"
  , responses := [{ name := "NotFound", status := 404, mediaType := "mt", viewName := "" }]
  , webSocket := false }

/-- A global media-type mapping resolving only the identifier `"mt"`. -/
def mtsW : String → Option MediaTypeDefinition :=
  fun s => if s = "mt" then some mtOk else none

/-- A second mapping that agrees with `mtsW` on `"mt"` but differs
elsewhere. -/
def mtsW2 : String → Option MediaTypeDefinition :=
  fun s =>
    if s = "other" then some { identifier := "other", isError := true }
    else if s = "mt" then some mtOk else none

/-! ## C9: rollback is idempotent -/

/-- C9: `Cleanup` is idempotent: the first call clears the creation log,
so a second call iterates over no recorded paths, deletes nothing, and
leaves both the log and the filesystem unchanged. -/
theorem cleanup_idempotent (st : GenSt) : cleanup (cleanup st) = cleanup st := rfl

/-! ## C1: failure after file creation (code bug) -/

/-- C1 (divergence witness): with a single resource whose controller
template rendering fails, `Generate` returns success, reports the
partially-written resource file in its result list, leaves that file on
disk with only its header content, and performs no rollback — because
the per-resource closure executes `return err` (the enclosing function's
named error, which is nil there) instead of `return err2` after the
failed `ExecuteTemplate` call (generator.go line 119-121). This
contradicts the documented failure semantics (abort, full rollback,
propagate). -/
theorem generate_swallows_template_error :
    (generate extBug cfgBug []).2 = Except.ok ["out/main.go", "out/bottle.go"] ∧
    FS.read (generate extBug cfgBug []).1 "out/bottle.go" = some "HDR\n" ∧
    FS.read (generate extBug cfgBug []).1 "out/main.go"
      = some "//go:generate goagen bootstrap -d dp\n\nMHDR\nMAINBODY\n" := by
  refine ⟨rfl, rfl, rfl⟩

/-- C1 (contrast): a formatting error, by contrast, does propagate and
does roll back: with `formatCode` failing, the run reports the error and
the final filesystem contains neither generated file. -/
theorem generate_format_error_rolls_back :
    (generate { extBug with renderCtrl := fun _ => some "CTRL\n"
                          , formatCode := fun _ => none } cfgBug []).2
      = Except.error GenErr.format ∧
    (generate { extBug with renderCtrl := fun _ => some "CTRL\n"
                          , formatCode := fun _ => none } cfgBug []).1 = [] := by
  refine ⟨rfl, rfl⟩

/-! ## C7: okResp is a pure, deterministic read -/

/-- C7: success-response resolution is modelled by the pure function
`okResp`, which threads no state: its result depends only on its declared
inputs. Strengthened to a noninterference form: whenever two global
media-type mappings agree on the canonical identifier of every declared
200 response of the action, `okResp` returns identical descriptors; the
same-input/same-output reading is the instance `mts2 = mts1`. -/
theorem okResp_pure_deterministic (ext : Ext) (target : String)
    (mts1 mts2 : String → Option MediaTypeDefinition) (a : ActionDefinition)
    (h : ∀ resp ∈ a.responses, resp.status = 200 →
      mts1 (ext.canonicalIdentifier resp.mediaType)
        = mts2 (ext.canonicalIdentifier resp.mediaType)) :
    okResp ext target mts1 a = okResp ext target mts2 a := by
  cases hf : a.responses.find? (fun resp => resp.status == 200) with
  | none => simp [okResp, hf]
  | some ok =>
    have hmem : ok ∈ a.responses := List.mem_of_find?_eq_some hf
    have hstat : ok.status = 200 := by
      have := List.find?_some hf
      simpa using this
    simp only [okResp, hf]
    rw [h ok hmem hstat]

/-- Witness for `okResp_pure_deterministic`: two syntactically different
mappings agreeing on the one relevant identifier yield the same
descriptor. -/
theorem okResp_pure_deterministic_witness :
    (∀ resp ∈ aCex.responses, resp.status = 200 →
      mtsW (extBug.canonicalIdentifier resp.mediaType)
        = mtsW2 (extBug.canonicalIdentifier resp.mediaType)) ∧
    okResp extBug "app" mtsW aCex = okResp extBug "app" mtsW2 aCex :=
  ⟨by decide, okResp_pure_deterministic extBug "app" mtsW mtsW2 aCex (by decide)⟩

/-! ## C2: exact-200 scan (corrected: 200 is necessary, not sufficient) -/

/-- C2 (counterexample to the claim as stated): producing a descriptor is
not equivalent to the presence of a status-200 response. For an action
declaring a 200 response whose media type does not resolve, `okResp`
returns empty although a 200 entry exists. -/
theorem okResp_iff200_counterexample :
    ¬ (((okResp extBug "app" (fun _ => none) aCex).isSome = true) ↔
      (aCex.responses.any (fun r => r.status == 200) = true)) := by decide

/-- C2 (amended): `okResp` produces a descriptor only if some entry of the
action's response mapping has status code exactly 200; and when no
response has status 200, `okResp` returns empty and the emitted handler
body returns the literal `nil`. (The converse implication fails: a 200
response whose media type or view does not resolve also yields empty,
see `okResp_unresolvable_degrades`.) -/
theorem okResp_200_necessary (ext : Ext) (target : String)
    (mts : String → Option MediaTypeDefinition) (a : ActionDefinition) :
    (∀ d, okResp ext target mts a = some d →
      ∃ r ∈ a.responses, r.status = 200) ∧
    ((∀ r ∈ a.responses, r.status ≠ 200) →
      okResp ext target mts a = none ∧
      actionReturn (okResp ext target mts a) = "nil") := by
  constructor
  · intro d hd
    unfold okResp at hd
    cases hf : a.responses.find? (fun resp => resp.status == 200) with
    | none =>
      rw [hf] at hd
      exact absurd hd (by simp)
    | some ok =>
      refine ⟨ok, List.mem_of_find?_eq_some hf, ?_⟩
      have := List.find?_some hf
      simpa using this
  · intro hno
    have hf : a.responses.find? (fun resp => resp.status == 200) = none := by
      rw [List.find?_eq_none]
      intro r hr
      simpa using hno r hr
    unfold okResp
    rw [hf]
    exact ⟨rfl, rfl⟩

/-- Witness for `okResp_200_necessary`: an action with only a 404
response yields no descriptor and a handler returning `nil`. -/
theorem okResp_200_necessary_witness :
    okResp extBug "app" (fun _ => none) a404 = none ∧
    actionReturn (okResp extBug "app" (fun _ => none) a404) = "nil" :=
  (okResp_200_necessary extBug "app" (fun _ => none) a404).2 (by decide)

/-! ## C3: unresolvable media type or failed projection degrade silently -/

/-- C3: for an action whose response scan finds a 200 response, an
unresolvable media-type identifier, or a failing view projection, makes
`okResp` return empty. (In the source `okResp` has no error return at
all — its signature only yields the descriptor map — so nothing can
abort the surrounding run from here; the run continues and the template
emits the `nil`-returning handler body.) -/
theorem okResp_unresolvable_degrades (ext : Ext) (target : String)
    (mts : String → Option MediaTypeDefinition) (a : ActionDefinition)
    (ok : ResponseDefinition)
    (hfind : a.responses.find? (fun resp => resp.status == 200) = some ok) :
    (mts (ext.canonicalIdentifier ok.mediaType) = none →
      okResp ext target mts a = none) ∧
    (∀ mt, mts (ext.canonicalIdentifier ok.mediaType) = some mt →
      ext.project mt (effectiveView ok) = none →
      okResp ext target mts a = none) := by
  constructor
  · intro hmt
    simp [okResp, hfind, hmt]
  · intro mt hmt hproj
    simp [okResp, hfind, hmt, hproj]

/-- Witness for `okResp_unresolvable_degrades`: both degradation paths at
a concrete action (unresolvable identifier; failing projection). -/
theorem okResp_unresolvable_degrades_witness :
    okResp extBug "app" (fun _ => none) aCex = none ∧
    okResp extBug "app" mtsW aCex = none :=
  ⟨(okResp_unresolvable_degrades extBug "app" (fun _ => none) aCex rOK (by decide)).1 rfl,
   (okResp_unresolvable_degrades extBug "app" mtsW aCex rOK (by decide)).2
     mtOk (by decide) rfl⟩

/-! ## C4: effective view and descriptor display name -/

/-- C4: for a resolvable 200 response, the view used for projection is the
response's explicit view when non-empty and the literal default view name
otherwise (`effectiveView`); and the descriptor's display name is exactly
the response's declared name when the effective view is the default one,
and the response name suffixed with `Goify(view, firstUpper)` — the
casing collaborator's capitalisation of the view name, e.g. `"Tiny"` —
when it is not. -/
theorem okResp_effective_view_name (ext : Ext) (target : String)
    (mts : String → Option MediaTypeDefinition) (a : ActionDefinition)
    (ok : ResponseDefinition) (mt pmt : MediaTypeDefinition)
    (hfind : a.responses.find? (fun resp => resp.status == 200) = some ok)
    (hmt : mts (ext.canonicalIdentifier ok.mediaType) = some mt)
    (hproj : ext.project mt (effectiveView ok) = some pmt) :
    effectiveView ok = (if ok.viewName = "" then DefaultView else ok.viewName) ∧
    ∃ d, okResp ext target mts a = some d ∧
      d.Name = (if effectiveView ok = "default" then ok.name
                else ok.name ++ ext.goify (effectiveView ok) true) := by
  refine ⟨rfl, ?_⟩
  simp only [okResp, hfind, hmt, hproj]
  refine ⟨_, rfl, ?_⟩
  by_cases h : effectiveView ok = "default"
  · simp [h]
  · simp [h]

/-- Collaborators for the `"tiny"`-view witness: projection succeeds and
the casing collaborator capitalises. -/
def extTiny : Ext :=
  { extBug with
      project := fun mt _ => some mt
      goify := fun s b => if b then s.capitalize else s }

/-- The 200 response declaring view `"tiny"`. -/
def rTiny : ResponseDefinition :=
  { name := "OK", status := 200, mediaType := "mt", viewName := "tiny" }

/-- An action whose 200 response declares view `"tiny"`. -/
def aTiny : ActionDefinition :=
  { name := "show", responses := [rTiny], webSocket := false }

/-- Witness for `okResp_effective_view_name`: with view `"tiny"` and a
capitalising casing collaborator the emitted name is `"OKTiny"`. -/
theorem okResp_effective_view_name_witness :
    (effectiveView rTiny = (if rTiny.viewName = "" then DefaultView else rTiny.viewName) ∧
     ∃ d, okResp extTiny "app" mtsW aTiny = some d ∧
       d.Name = (if effectiveView rTiny = "default" then rTiny.name
                 else rTiny.name ++ extTiny.goify (effectiveView rTiny) true)) ∧
    okResp extTiny "app" mtsW aTiny
      = some { Name := "OKTiny", GoType := "x", TypeRef := "app.X\x7b\x7d" } :=
  ⟨okResp_effective_view_name extTiny "app" mtsW aTiny rTiny mtOk mtOk rfl rfl rfl,
   by decide⟩

/-! ## C10: shape of the constructor expression -/

/-- Prefix test against `"*"` on a cons cell. -/
theorem isPrefixOf_star_cons (c : Char) (l : List Char) :
    List.isPrefixOf ['*'] (c :: l) = ('*' == c) := by
  simp [List.isPrefixOf]

/-- A list that does not start with `'*'` still does not after appending
`'.' :: r` on the right. -/
theorem star_notPre_append (l r : List Char)
    (h : List.isPrefixOf ['*'] l = false) :
    List.isPrefixOf ['*'] (l ++ '.' :: r) = false := by
  cases l with
  | nil => simp [List.isPrefixOf]
  | cons c cs =>
    rw [List.cons_append, isPrefixOf_star_cons]
    rw [isPrefixOf_star_cons] at h
    exact h

/-- A string of the shape `"*" ++ t ++ "." ++ n` starts with `"*"`. -/
theorem hasPre_star_expr (t n : String) : hasPre ("*" ++ t ++ "." ++ n) "*" = true := by
  simp only [hasPre, String.data_append]
  simp [List.isPrefixOf]

/-- A string of the shape `"&" ++ s ++ t` does not start with `"*"`. -/
theorem hasPre_amp_expr (s t : String) : hasPre ("&" ++ s ++ t) "*" = false := by
  simp only [hasPre, String.data_append]
  simp [List.isPrefixOf]

/-- If `t` does not start with `"*"`, neither does `"" ++ t ++ "." ++ n`. -/
theorem hasPre_dotted_expr (t n : String) (h : hasPre t "*" = false) :
    hasPre ("" ++ t ++ "." ++ n) "*" = false := by
  simp only [hasPre, String.data_append, List.nil_append, List.append_assoc,
    List.singleton_append]
  exact star_notPre_append _ _ h

/-- If `t` does not start with `"*"`, neither does
`"" ++ t ++ "." ++ n ++ m`. -/
theorem hasPre_dotted_expr2 (t n m : String) (h : hasPre t "*" = false) :
    hasPre ("" ++ t ++ "." ++ n ++ m) "*" = false := by
  simp only [hasPre, String.data_append, List.nil_append, List.append_assoc,
    List.singleton_append]
  exact star_notPre_append _ _ h

/-- Dropping the leading star. -/
theorem drop_star_expr (t n : String) : ("*" ++ t ++ "." ++ n).drop 1 = t ++ "." ++ n := by
  apply String.ext
  simp [String.data_append, String.data_drop]

/-- Left-append of the empty string. -/
theorem empty_append_expr (t n : String) : ("" ++ t ++ "." ++ n) = t ++ "." ++ n := by
  apply String.ext
  simp [String.data_append]

/-- C10: for a resolvable, non-error-shaped 200 response, the constructor
expression always ends in `"{}"` and never begins with `"*"`; when the
type reference produced by the type-naming collaborator begins with
`"*"`, the expression is `"&"` followed by the target-package-qualified
(de-starred) type name; otherwise it is the target-package-qualified
name by value. (`target` is the generated package name, which never
itself begins with `"*"`.) -/
theorem okResp_typeref_shape (ext : Ext) (target : String)
    (mts : String → Option MediaTypeDefinition) (a : ActionDefinition)
    (ok : ResponseDefinition) (mt pmt : MediaTypeDefinition)
    (hfind : a.responses.find? (fun resp => resp.status == 200) = some ok)
    (hmt : mts (ext.canonicalIdentifier ok.mediaType) = some mt)
    (hproj : ext.project mt (effectiveView ok) = some pmt)
    (herr : pmt.isError = false)
    (htgt : hasPre target "*" = false) :
    ∃ d, okResp ext target mts a = some d ∧
      (∃ base, d.TypeRef = base ++ "\x7b\x7d") ∧
      hasPre d.TypeRef "*" = false ∧
      (hasPre (ext.goTypeRef pmt (ext.allRequired pmt) 1 false) "*" = true →
        d.TypeRef = "&" ++ (target ++ "."
          ++ (ext.goTypeRef pmt (ext.allRequired pmt) 1 false).drop 1)
          ++ "\x7b\x7d") ∧
      (hasPre (ext.goTypeRef pmt (ext.allRequired pmt) 1 false) "*" = false →
        d.TypeRef = (target ++ "."
          ++ ext.goTypeRef pmt (ext.allRequired pmt) 1 false)
          ++ "\x7b\x7d") := by
  simp only [okResp, hfind, hmt, hproj, herr, Bool.false_eq_true, if_false]
  refine ⟨_, rfl, ⟨_, rfl⟩, ?_, ?_, ?_⟩
  · cases hp : hasPre (ext.goTypeRef pmt (ext.allRequired pmt) 1 false) "*" with
    | true =>
      simp only [hp, eq_self_iff_true, if_true]
      simp only [hasPre_star_expr, eq_self_iff_true, if_true]
      exact hasPre_amp_expr _ _
    | false =>
      simp only [hp, Bool.false_eq_true, if_false]
      rw [hasPre_dotted_expr target _ htgt]
      simp only [Bool.false_eq_true, if_false]
      exact hasPre_dotted_expr2 target _ _ htgt
  · intro hp
    simp only [hp, eq_self_iff_true, if_true]
    simp only [hasPre_star_expr, eq_self_iff_true, if_true]
    rw [drop_star_expr]
  · intro hp
    simp only [hp, Bool.false_eq_true, if_false]
    rw [hasPre_dotted_expr target _ htgt]
    simp only [Bool.false_eq_true, if_false]
    rw [empty_append_expr]

/-- Witness for `okResp_typeref_shape`: a starred collaborator type
reference `"*X"` yields the by-reference constructor `"&app.X{}"`. -/
theorem okResp_typeref_shape_witness :
    (∃ d, okResp { extTiny with goTypeRef := fun _ _ _ _ => "*X" } "app" mtsW aCex
        = some d ∧
      (∃ base, d.TypeRef = base ++ "\x7b\x7d") ∧
      hasPre d.TypeRef "*" = false ∧
      (hasPre "*X" "*" = true →
        d.TypeRef = "&" ++ ("app" ++ "." ++ ("*X" : String).drop 1) ++ "\x7b\x7d") ∧
      (hasPre "*X" "*" = false →
        d.TypeRef = ("app" ++ "." ++ "*X") ++ "\x7b\x7d")) ∧
    okResp { extTiny with goTypeRef := fun _ _ _ _ => "*X" } "app" mtsW aCex
      = some { Name := "OK", GoType := "x", TypeRef := "&app.X\x7b\x7d" } :=
  ⟨okResp_typeref_shape { extTiny with goTypeRef := fun _ _ _ _ => "*X" } "app"
      mtsW aCex rOK mtOk mtOk rfl rfl rfl rfl rfl,
   by decide⟩

/-! ## Filesystem lemmas -/

theorem FS.existsb_remove_self (fs : FS) (p : String) :
    FS.existsb (FS.remove fs p) p = false := by
  induction fs with
  | nil => rfl
  | cons e rest ih =>
    rw [FS.remove, List.filter_cons]
    by_cases h : e.1 = p
    · simp only [h, bne_self_eq_false, Bool.false_eq_true, if_false]
      exact ih
    · have hne : (e.1 != p) = true := by simp [bne, h]
      simp only [hne, if_true]
      rw [FS.existsb, List.any_cons]
      have : (e.1 == p) = false := by simp [h]
      rw [this]
      simpa [FS.existsb, FS.remove] using ih

theorem FS.existsb_remove_ne (fs : FS) {p q : String} (h : p ≠ q) :
    FS.existsb (FS.remove fs p) q = FS.existsb fs q := by
  induction fs with
  | nil => rfl
  | cons e rest ih =>
    rw [FS.remove, List.filter_cons]
    by_cases he : e.1 = p
    · have hne : (e.1 == q) = false := by
        rw [he]
        simp [h]
      simp only [he, bne_self_eq_false, Bool.false_eq_true, if_false]
      have hR : FS.existsb (e :: rest) q = FS.existsb rest q := by
        rw [FS.existsb, List.any_cons, hne, Bool.false_or]
        rfl
      rw [hR]
      exact ih
    · have hne : (e.1 != p) = true := by simp [bne, he]
      simp only [hne, if_true]
      have hL : FS.existsb (e :: List.filter (fun x => x.1 != p) rest) q
          = ((e.1 == q) || FS.existsb (FS.remove rest p) q) := rfl
      have hR : FS.existsb (e :: rest) q = ((e.1 == q) || FS.existsb rest q) := rfl
      rw [hL, hR, ih]

theorem FS.existsb_write_self (fs : FS) (p c : String) :
    FS.existsb (FS.write fs p c) p = true := by
  rw [FS.write, FS.existsb, List.any_cons]
  simp

theorem FS.existsb_write_ne (fs : FS) {p q : String} (c : String) (h : p ≠ q) :
    FS.existsb (FS.write fs p c) q = FS.existsb fs q := by
  rw [FS.write, FS.existsb, List.any_cons]
  have : (p == q) = false := by simp [h]
  rw [this]
  simpa [FS.existsb] using FS.existsb_remove_ne fs h

theorem FS.existsb_write_mono (fs : FS) {q : String} (p c : String)
    (h : FS.existsb fs q = true) :
    FS.existsb (FS.write fs p c) q = true := by
  by_cases hpq : p = q
  · rw [hpq]
    exact FS.existsb_write_self fs q c
  · rw [FS.existsb_write_ne fs c hpq]
    exact h

theorem FS.remove_remove_self (fs : FS) (p : String) :
    FS.remove (FS.remove fs p) p = FS.remove fs p := by
  rw [FS.remove, FS.remove, List.filter_filter]
  apply List.filter_congr
  intro e _
  simp [Bool.and_self]

/-! ## Emitter lemmas (force = false) -/

/-- Without `force`, a resource step never deletes: every existing file
still exists afterwards. -/
theorem resourceStep_fs_mono (ext : Ext) (cfg : Config) (hf : cfg.force = false)
    (st : GenSt) (r : ResourceDefinition) {q : String}
    (hq : FS.existsb st.fs q = true) :
    FS.existsb (resourceStep ext cfg st r).1.fs q = true := by
  simp only [resourceStep, resourceBody]
  rw [hf]
  simp only [Bool.false_eq_true, if_false]
  repeat' split
  all_goals
    first
    | exact hq
    | ((repeat apply FS.existsb_write_mono); exact hq)

/-- Without `force`, iteration over resources never deletes. -/
theorem iterResources_fs_mono (ext : Ext) (cfg : Config) (hf : cfg.force = false) :
    ∀ (rs : List ResourceDefinition) (st : GenSt) {q : String},
      FS.existsb st.fs q = true →
      FS.existsb (iterResources ext cfg st rs).1.fs q = true := by
  intro rs
  induction rs with
  | nil => intro st q hq; exact hq
  | cons r0 rest ih =>
    intro st q hq
    cases hstep : (resourceStep ext cfg st r0).2 with
    | some e =>
      simp only [iterResources, hstep]
      exact resourceStep_fs_mono ext cfg hf st r0 hq
    | none =>
      simp only [iterResources, hstep]
      exact ih _ (resourceStep_fs_mono ext cfg hf st r0 hq)

/-- Without `force`, after a resource step the target file exists unless
opening it failed (`SourceFileFor` returning an error, in which case the
source skips the body silently). -/
theorem resourceStep_post (ext : Ext) (cfg : Config) (hf : cfg.force = false)
    (st : GenSt) (r : ResourceDefinition) :
    FS.existsb (resourceStep ext cfg st r).1.fs (resFilename ext cfg r) = true
    ∨ ext.sourceFileFor (resFilename ext cfg r) = false := by
  simp only [resourceStep, resourceBody]
  rw [hf]
  simp only [Bool.false_eq_true, if_false]
  repeat' split
  all_goals
    first
    | exact Or.inl (FS.existsb_write_self _ _ _)
    | (left; assumption)
    | (right; assumption)

/-- Without `force`, a completed (no-error) iteration leaves every target
file existing, except those whose `SourceFileFor` fails. -/
theorem iterResources_post (ext : Ext) (cfg : Config) (hf : cfg.force = false) :
    ∀ (rs : List ResourceDefinition) (st : GenSt),
      (iterResources ext cfg st rs).2 = none →
      ∀ r ∈ rs,
        FS.existsb (iterResources ext cfg st rs).1.fs (resFilename ext cfg r) = true
        ∨ ext.sourceFileFor (resFilename ext cfg r) = false := by
  intro rs
  induction rs with
  | nil => intro st _ r hr; exact absurd hr (List.not_mem_nil r)
  | cons r0 rest ih =>
    intro st hnone r hr
    cases hstep : (resourceStep ext cfg st r0).2 with
    | some e =>
      rw [iterResources] at hnone
      simp only [hstep] at hnone
      exact absurd hnone (by simp)
    | none =>
      rw [iterResources] at hnone ⊢
      simp only [hstep] at hnone ⊢
      rcases List.mem_cons.mp hr with hr0 | hrt
      · subst hr0
        rcases resourceStep_post ext cfg hf st r with hl | hrr
        · exact Or.inl (iterResources_fs_mono ext cfg hf rest _ hl)
        · exact Or.inr hrr
      · exact ih _ hnone r hrt

/-- A successful `createMainFile` leaves the main file existing. -/
theorem createMainFile_post (ext : Ext) (cfg : Config) (mf : String) (st : GenSt) :
    (createMainFile ext cfg mf st).2 = none →
    FS.existsb (createMainFile ext cfg mf st).1.fs mf = true := by
  simp only [createMainFile]
  repeat' split
  all_goals
    intro h
    first
    | exact FS.existsb_write_self _ _ _
    | simp at h

/-- `createMainFile` always records exactly the main file in the log. -/
theorem createMainFile_genfiles (ext : Ext) (cfg : Config) (mf : String) (st : GenSt) :
    (createMainFile ext cfg mf st).1.genfiles = st.genfiles ++ [mf] := by
  simp only [createMainFile]
  repeat' split
  all_goals rfl

/-- Without `force`, a resource step on a target that already exists (or
whose `SourceFileFor` fails) changes no file: it only possibly records
the (non-existing) target in the log and reports no error. -/
theorem resourceStep_second (ext : Ext) (cfg : Config) (hf : cfg.force = false)
    (st : GenSt) (r : ResourceDefinition)
    (hx : FS.existsb st.fs (resFilename ext cfg r) = true
          ∨ ext.sourceFileFor (resFilename ext cfg r) = false) :
    ∃ gadd, resourceStep ext cfg st r
        = ({ st with genfiles := st.genfiles ++ gadd }, none)
      ∧ ∀ p ∈ gadd, FS.existsb st.fs p = false := by
  simp only [resourceStep, resourceBody]
  rw [hf]
  simp only [Bool.false_eq_true, if_false]
  by_cases hex : FS.existsb st.fs (resFilename ext cfg r) = true
  · rw [if_pos hex]
    refine ⟨[], by simp, by simp⟩
  · have hsf : ext.sourceFileFor (resFilename ext cfg r) = false := by
      rcases hx with h | h
      · exact absurd h hex
      · exact h
    rw [if_neg hex, if_pos hsf]
    refine ⟨[resFilename ext cfg r], rfl, ?_⟩
    intro p hp
    rw [List.mem_singleton] at hp
    subst hp
    simpa using hex

/-- Without `force`, iterating over resources all of whose targets exist
(or fail to open) changes no file, reports no error, and records only
non-existing targets. -/
theorem iterResources_second (ext : Ext) (cfg : Config) (hf : cfg.force = false) :
    ∀ (rs : List ResourceDefinition) (st : GenSt),
      (∀ r ∈ rs, FS.existsb st.fs (resFilename ext cfg r) = true
        ∨ ext.sourceFileFor (resFilename ext cfg r) = false) →
      ∃ gadd, iterResources ext cfg st rs
          = ({ st with genfiles := st.genfiles ++ gadd }, none)
        ∧ ∀ p ∈ gadd, FS.existsb st.fs p = false := by
  intro rs
  induction rs with
  | nil =>
    intro st _
    exact ⟨[], by simp [iterResources], by simp⟩
  | cons r0 rest ih =>
    intro st hx
    obtain ⟨g1, hstep, hg1⟩ :=
      resourceStep_second ext cfg hf st r0 (hx r0 (List.mem_cons_self r0 rest))
    rw [iterResources, hstep]
    simp only []
    obtain ⟨g2, hiter, hg2⟩ := ih { st with genfiles := st.genfiles ++ g1 }
      (fun r hr => hx r (List.mem_cons_of_mem r0 hr))
    refine ⟨g1 ++ g2, ?_, ?_⟩
    · rw [hiter]
      simp [List.append_assoc]
    · intro p hp
      rcases List.mem_append.mp hp with h | h
      · exact hg1 p h
      · exact hg2 p h

/-- Core of the idempotence argument: if a no-`force` run completed from
some start state whose filesystem already contains the main file, a new
run on the resulting filesystem changes nothing and records only paths
that do not exist. -/
theorem generate_idem_aux (ext : Ext) (cfg : Config) (hf : cfg.force = false)
    (fs1 : FS) (stS st : GenSt) (pp : String)
    (hmainS : FS.existsb stS.fs (mainFilename cfg) = true)
    (hc : iterResources ext cfg stS cfg.resources = (st, none))
    (hfs : st.fs = fs1)
    (hpp : ext.packagePath = some pp) :
    ∃ files2, generate ext cfg fs1 = (fs1, Except.ok files2)
      ∧ ∀ p ∈ files2, FS.existsb fs1 p = false := by
  have hmain1 : FS.existsb fs1 (mainFilename cfg) = true := by
    have hmono := iterResources_fs_mono ext cfg hf cfg.resources stS hmainS
    rw [hc] at hmono
    rw [← hfs]
    exact hmono
  have htargets : ∀ r ∈ cfg.resources,
      FS.existsb fs1 (resFilename ext cfg r) = true
      ∨ ext.sourceFileFor (resFilename ext cfg r) = false := by
    intro r hr
    have hpost := iterResources_post ext cfg hf cfg.resources stS (by rw [hc]) r hr
    rw [hc] at hpost
    rw [← hfs]
    exact hpost
  obtain ⟨gadd, hiter2, hgadd⟩ := iterResources_second ext cfg hf cfg.resources
    { fs := fs1, genfiles := [] } htargets
  refine ⟨gadd, ?_, hgadd⟩
  unfold generate generateCore
  rw [hf]
  simp only [Bool.false_eq_true, if_false]
  rw [hpp]
  simp only []
  rw [if_pos hmain1]
  rw [hiter2]
  simp

/-- C5: idempotence. If a run with `force=false` succeeds, re-running
`Generate` on the resulting filesystem (same design model, same
collaborators) leaves every file byte-identical — the filesystem
component of the result is unchanged — and every target path that
already exists is skipped: only paths that do not exist (targets whose
`SourceFileFor` keeps failing) can appear in the second run's creation
log, so the second run creates zero files. -/
theorem generate_idempotent (ext : Ext) (cfg : Config) (fs0 fs1 : FS)
    (files : List String) (hf : cfg.force = false)
    (h : generate ext cfg fs0 = (fs1, Except.ok files)) :
    ∃ files2, generate ext cfg fs1 = (fs1, Except.ok files2)
      ∧ ∀ p ∈ files2, FS.existsb fs1 p = false := by
  cases hc : generateCore ext cfg fs0 with
  | mk st e =>
    cases e with
    | some e1 =>
      unfold generate at h
      rw [hc] at h
      simp at h
    | none =>
      unfold generate at h
      rw [hc] at h
      simp only [] at h
      have hfs : st.fs = fs1 := congrArg Prod.fst h
      unfold generateCore at hc
      rw [hf] at hc
      simp only [Bool.false_eq_true, if_false] at hc
      cases hpp : ext.packagePath with
      | none =>
        rw [hpp] at hc
        simp at hc
      | some pp =>
        rw [hpp] at hc
        simp only [] at hc
        by_cases hm : FS.existsb fs0 (mainFilename cfg) = true
        · rw [if_pos hm] at hc
          exact generate_idem_aux ext cfg hf fs1 _ st pp hm hc hfs hpp
        · rw [if_neg hm] at hc
          cases hcm : (createMainFile ext cfg (mainFilename cfg)
              { fs := fs0, genfiles := [] }).2 with
          | some e2 =>
            simp only [hcm] at hc
            simp at hc
          | none =>
            simp only [hcm] at hc
            exact generate_idem_aux ext cfg hf fs1 _ st pp
              (createMainFile_post ext cfg (mainFilename cfg) _ hcm) hc hfs hpp

/-- Collaborators for a fully successful run (controller template
renders). -/
def extGood : Ext := { extBug with renderCtrl := fun _ => some "CTRL\n" }

/-- Witness for `generate_idempotent`: a concrete successful first run,
after which the second run returns the same filesystem and records only
non-existing paths (in fact none). -/
theorem generate_idempotent_witness :
    cfgBug.force = false ∧
    (generate extGood cfgBug []).2 = Except.ok ["out/main.go", "out/bottle.go"] ∧
    ∃ files2,
      generate extGood cfgBug (generate extGood cfgBug []).1
        = ((generate extGood cfgBug []).1, Except.ok files2)
      ∧ ∀ p ∈ files2, FS.existsb (generate extGood cfgBug []).1 p = false :=
  ⟨rfl, rfl,
   generate_idempotent extGood cfgBug [] (generate extGood cfgBug []).1
     ["out/main.go", "out/bottle.go"] rfl rfl⟩

/-! ## C6: force overwrite -/

/-- The creation log only grows across a resource step. -/
theorem resourceStep_genfiles_append (ext : Ext) (cfg : Config)
    (st : GenSt) (r : ResourceDefinition) :
    ∃ g, (resourceStep ext cfg st r).1.genfiles = st.genfiles ++ g := by
  simp only [resourceStep, resourceBody]
  repeat' split
  all_goals
    first
    | (refine ⟨[resFilename ext cfg r], ?_⟩; rfl)
    | (refine ⟨[], ?_⟩; simp)

/-- The creation log only grows across the resource iteration. -/
theorem iterResources_genfiles_append (ext : Ext) (cfg : Config) :
    ∀ (rs : List ResourceDefinition) (st : GenSt),
      ∃ g, (iterResources ext cfg st rs).1.genfiles = st.genfiles ++ g := by
  intro rs
  induction rs with
  | nil => intro st; exact ⟨[], by simp [iterResources]⟩
  | cons r0 rest ih =>
    intro st
    obtain ⟨g1, hg1⟩ := resourceStep_genfiles_append ext cfg st r0
    cases hstep : (resourceStep ext cfg st r0).2 with
    | some e =>
      simp only [iterResources, hstep]
      exact ⟨g1, hg1⟩
    | none =>
      simp only [iterResources, hstep]
      obtain ⟨g2, hg2⟩ := ih (resourceStep ext cfg st r0).1
      exact ⟨g1 ++ g2, by rw [hg2, hg1, List.append_assoc]⟩

/-- With `force` set, each resource step always records its target. -/
theorem resourceStep_force_records (ext : Ext) (cfg : Config)
    (hforce : cfg.force = true) (st : GenSt) (r : ResourceDefinition) :
    (resourceStep ext cfg st r).1.genfiles
      = st.genfiles ++ [resFilename ext cfg r] := by
  simp only [resourceStep, resourceBody]
  rw [hforce]
  simp only [if_true]
  rw [if_neg (by simp [FS.existsb_remove_self])]
  repeat' split
  all_goals rfl

/-- With `force` set, a completed iteration records every resource
target. -/
theorem iterResources_force_records (ext : Ext) (cfg : Config)
    (hforce : cfg.force = true) :
    ∀ (rs : List ResourceDefinition) (st : GenSt),
      (iterResources ext cfg st rs).2 = none →
      ∀ r ∈ rs, resFilename ext cfg r ∈ (iterResources ext cfg st rs).1.genfiles := by
  intro rs
  induction rs with
  | nil => intro st _ r hr; exact absurd hr (List.not_mem_nil r)
  | cons r0 rest ih =>
    intro st hnone r hr
    cases hstep : (resourceStep ext cfg st r0).2 with
    | some e =>
      rw [iterResources] at hnone
      simp only [hstep] at hnone
      exact absurd hnone (by simp)
    | none =>
      rw [iterResources] at hnone ⊢
      simp only [hstep] at hnone ⊢
      rcases List.mem_cons.mp hr with hr0 | hrt
      · subst hr0
        obtain ⟨g2, hg2⟩ :=
          iterResources_genfiles_append ext cfg rest (resourceStep ext cfg st r).1
        rw [hg2, resourceStep_force_records ext cfg hforce st r]
        exact List.mem_append_left _ (List.mem_append_right _ (List.mem_singleton_self _))
      · exact ih _ hnone r hrt

/-- C6: force overwrite. With `force=true`: (a) each resource step first
deletes the target path, so its result is unchanged when the target is
deleted beforehand — the prior file's content cannot influence it — and
it always records the target in the creation log; (b) likewise the whole
run is unchanged when the entry-point file is deleted beforehand; (c) a
successful run's creation log contains the entry-point file and every
per-resource file: each was deleted and regenerated. -/
theorem generate_force_overwrites (ext : Ext) (cfg : Config)
    (hforce : cfg.force = true) :
    (∀ st r, resourceStep ext cfg st r
        = resourceStep ext cfg
            { st with fs := FS.remove st.fs (resFilename ext cfg r) } r
      ∧ (resourceStep ext cfg st r).1.genfiles
          = st.genfiles ++ [resFilename ext cfg r]) ∧
    (∀ fs0, generate ext cfg fs0
        = generate ext cfg (FS.remove fs0 (mainFilename cfg))) ∧
    (∀ fs0 fs1 files, generate ext cfg fs0 = (fs1, Except.ok files) →
      mainFilename cfg ∈ files ∧
      ∀ r ∈ cfg.resources, resFilename ext cfg r ∈ files) := by
  refine ⟨?_, ?_, ?_⟩
  · intro st r
    constructor
    · rw [resourceStep, resourceStep, hforce]
      simp only [if_true]
      congr 1
      cases st
      simp [FS.remove_remove_self]
    · exact resourceStep_force_records ext cfg hforce st r
  · intro fs0
    unfold generate generateCore
    rw [hforce]
    simp only [if_true]
    rw [FS.remove_remove_self]
  · intro fs0 fs1 files h
    cases hc : generateCore ext cfg fs0 with
    | mk st e =>
      cases e with
      | some e1 =>
        unfold generate at h
        rw [hc] at h
        simp at h
      | none =>
        unfold generate at h
        rw [hc] at h
        have hgen : st.genfiles = files := by
          have := congrArg Prod.snd h
          simpa using this
        unfold generateCore at hc
        rw [hforce] at hc
        simp only [if_true] at hc
        rw [if_neg (by simp [FS.existsb_remove_self])] at hc
        cases hpp : ext.packagePath with
        | none =>
          rw [hpp] at hc
          simp at hc
        | some pp =>
         rw [hpp] at hc
         simp only [] at hc
         cases hcm : (createMainFile ext cfg (mainFilename cfg)
            { fs := FS.remove fs0 (mainFilename cfg), genfiles := [] }).2 with
         | some e2 =>
          simp only [hcm] at hc
          simp at hc
         | none =>
          simp only [hcm] at hc
          have hcmg := createMainFile_genfiles ext cfg (mainFilename cfg)
            { fs := FS.remove fs0 (mainFilename cfg), genfiles := [] }
          constructor
          · obtain ⟨g2, hg2⟩ := iterResources_genfiles_append ext cfg cfg.resources
              (createMainFile ext cfg (mainFilename cfg)
                { fs := FS.remove fs0 (mainFilename cfg), genfiles := [] }).1
            rw [hc] at hg2
            rw [← hgen]
            have hst : st.genfiles = ([] ++ [mainFilename cfg]) ++ g2 := by
              rw [← hcmg]
              exact hg2
            rw [hst]
            simp
          · intro r hr
            have := iterResources_force_records ext cfg hforce cfg.resources
              (createMainFile ext cfg (mainFilename cfg)
                { fs := FS.remove fs0 (mainFilename cfg), genfiles := [] }).1
              (by rw [hc]) r hr
            rw [hc] at this
            rw [← hgen]
            exact this

/-- The single-resource run configuration with `force` set. -/
def cfgForce : Config := { cfgBug with force := true }

/-- Witness for `generate_force_overwrites`, plus a concrete run showing
stale pre-existing contents at both target paths being replaced by
freshly generated contents. -/
theorem generate_force_overwrites_witness :
    cfgForce.force = true ∧
    ((∀ st r, resourceStep extGood cfgForce st r
        = resourceStep extGood cfgForce
            { st with fs := FS.remove st.fs (resFilename extGood cfgForce r) } r
      ∧ (resourceStep extGood cfgForce st r).1.genfiles
          = st.genfiles ++ [resFilename extGood cfgForce r]) ∧
     (∀ fs0, generate extGood cfgForce fs0
        = generate extGood cfgForce (FS.remove fs0 (mainFilename cfgForce))) ∧
     (∀ fs0 fs1 files, generate extGood cfgForce fs0 = (fs1, Except.ok files) →
       mainFilename cfgForce ∈ files ∧
       ∀ r ∈ cfgForce.resources, resFilename extGood cfgForce r ∈ files)) ∧
    (FS.read (generate extGood cfgForce
        [("out/bottle.go", "STALE"), ("out/main.go", "OLD")]).1 "out/bottle.go"
      = some "HDR\nCTRL\n" ∧
     FS.read (generate extGood cfgForce
        [("out/bottle.go", "STALE"), ("out/main.go", "OLD")]).1 "out/main.go"
      = some "//go:generate goagen bootstrap -d dp\n\nMHDR\nMAINBODY\n") :=
  ⟨rfl, generate_force_overwrites extGood cfgForce rfl, rfl, rfl⟩
